import Mathlib

/-!
# pinger: the Responder (ping_server.go) and the Prober (ping_client.go)

A shallow embedding of the two Go source files.

* Go strings and HTTP bodies are Lean strings, so the bodies considered are
  the ones that are valid UTF-8 text.
* The parts of `net/http`, `encoding/json` and `time` that the two files call
  are modelled next to them, after the Go standard library.
* A `float64` is one of NaN, the two infinities, or a finite value given by
  the rational number it denotes; `<` on two finite values is the order of
  the rationals, and every comparison with NaN is false.
* Log calls are recorded as the level, the format template and the argument
  list handed to the sugared logger.
* The environment (the random source, the network) is an input: the handler
  receives the draw, the probe receives the outcome of `client.Get`.
-/

namespace Pinger

/-! ## Values shared by both programs -/

/-- Value of Go type `float64`. -/
inductive Float64 where
  | nan
  | negInf
  | posInf
  | finite (q : ℚ)
  deriving DecidableEq

/-- The Go operator `<` on `float64`. -/
def Float64.lt : Float64 → Float64 → Bool
  | .finite a, .finite b => decide (a < b)
  | .negInf, .finite _ => true
  | .negInf, .posInf => true
  | .finite _, .posInf => true
  | _, _ => false

/-- Range of `rand.Rand.Float64`: a finite value in the half-open interval [0,1). -/
def Float64.inUnit : Float64 → Bool
  | .finite q => decide (0 ≤ q) && decide (q < 1)
  | _ => false

/-- Log levels used by the two programs. -/
inductive Level where
  | info
  | error
  deriving DecidableEq, Repr

/-- Errors returned by `json.Decoder.Decode`. -/
inductive DecodeError where
  /-- `io.EOF`: the body holds no value at all. -/
  | eof
  /-- `io.ErrUnexpectedEOF`: the body ends inside a value. -/
  | unexpectedEOF
  /-- `json.SyntaxError`: invalid character `c`, with the scanner context. -/
  | invalidCharacter (c : Char) (context : String)
  /-- `json.UnmarshalTypeError`: a JSON value of the named kind cannot be stored in a Go string. -/
  | unmarshalType (value : String)
  deriving DecidableEq, Repr

/-- One argument of a formatted log call. -/
inductive Arg where
  | str (s : String)
  | int (n : Int)
  | transportErr (e : String)
  | decodeErr (e : DecodeError)
  deriving DecidableEq, Repr

/-- One call of `Infof` or `Errorf`: level, template, arguments. -/
structure LogEntry where
  level : Level
  template : String
  args : List Arg
  deriving DecidableEq, Repr

/-! ## encoding/json: the encoder for strings -/

def hexDigit (n : Nat) : Char :=
  if n < 10 then Char.ofNat (48 + n) else Char.ofNat (87 + n)

/-- Escape of one character inside a JSON string, as `json.Encoder` writes it
with HTML escaping on (the default). -/
def encodeChar (c : Char) : List Char :=
  if c = '\\' ∨ c = '"' then ['\\', c]
  else if c = '\n' then ['\\', 'n']
  else if c = '\r' then ['\\', 'r']
  else if c = '\t' then ['\\', 't']
  else if c.toNat < 32 ∨ c = '<' ∨ c = '>' ∨ c = '&' then
    ['\\', 'u', '0', '0', hexDigit (c.toNat / 16), hexDigit (c.toNat % 16)]
  else if c.toNat = 0x2028 then ['\\', 'u', '2', '0', '2', '8']
  else if c.toNat = 0x2029 then ['\\', 'u', '2', '0', '2', '9']
  else [c]

/-- JSON text of a Go string: `json.Marshal` of a string. -/
def marshalString (s : String) : String :=
  String.mk ('"' :: (s.toList.flatMap encodeChar) ++ ['"'])

/-! ## encoding/json: the scanner (scanner.go) -/

/-- What the scanner is inside of: the entries of `scanner.parseState`. -/
inductive ParseState where
  | parseObjectKey
  | parseObjectValue
  | parseArrayValue
  deriving DecidableEq, Repr

/-- The scanner's current `step` function. -/
inductive Step where
  | stateBeginValueOrEmpty | stateBeginValue | stateBeginStringOrEmpty | stateBeginString
  | stateEndValue | stateEndTop
  | stateInString | stateInStringEsc
  | stateInStringEscU | stateInStringEscU1 | stateInStringEscU12 | stateInStringEscU123
  | stateNeg | state1 | state0 | stateDot | stateDot0 | stateE | stateESign | stateE0
  | stateT | stateTr | stateTru
  | stateF | stateFa | stateFal | stateFals
  | stateN | stateNu | stateNul
  | stateError
  deriving DecidableEq, Repr

/-- Return codes of a scanner step. -/
inductive ScanCode where
  | scanContinue | scanBeginLiteral | scanBeginObject | scanObjectKey | scanObjectValue
  | scanEndObject | scanBeginArray | scanArrayValue | scanEndArray | scanSkipSpace
  | scanEnd | scanError
  deriving DecidableEq, Repr

/-- The scanner state; the top of `parseState` is the head of the list. -/
structure scanner where
  step : Step
  parseState : List ParseState
  err : Option DecodeError
  deriving DecidableEq, Repr

def maxNestingDepth : Nat := 10000

def scanner.reset : scanner := ⟨Step.stateBeginValue, [], none⟩

def isSpace (c : Char) : Bool :=
  c = ' ' || c = '\t' || c = '\r' || c = '\n'

def isDigit (c : Char) : Bool := '0' ≤ c && c ≤ '9'

def isHex (c : Char) : Bool :=
  ('0' ≤ c && c ≤ '9') || ('a' ≤ c && c ≤ 'f') || ('A' ≤ c && c ≤ 'F')

/-- Method `scanner.error`: record the error and stop. -/
def scanner.error (s : scanner) (c : Char) (context : String) : scanner × ScanCode :=
  ({ s with step := Step.stateError, err := some (DecodeError.invalidCharacter c context) },
    ScanCode.scanError)

def scanner.pushParseState (s : scanner) (c : Char) (newParseState : ParseState)
    (successState : ScanCode) : scanner × ScanCode :=
  let s1 := { s with parseState := newParseState :: s.parseState }
  if s1.parseState.length ≤ maxNestingDepth then (s1, successState)
  else s1.error c "exceeded max depth"

def scanner.popParseState (s : scanner) : scanner :=
  match s.parseState.tail with
  | [] => { s with parseState := [], step := Step.stateEndTop }
  | rest => { s with parseState := rest, step := Step.stateEndValue }

def stateEndTop (s : scanner) (c : Char) : scanner × ScanCode :=
  if !isSpace c then ((s.error c "after top-level value").1, ScanCode.scanEnd)
  else (s, ScanCode.scanEnd)

def stateEndValue (s : scanner) (c : Char) : scanner × ScanCode :=
  match s.parseState with
  | [] => stateEndTop { s with step := Step.stateEndTop } c
  | ps :: rest =>
    if isSpace c then ({ s with step := Step.stateEndValue }, ScanCode.scanSkipSpace)
    else match ps with
      | ParseState.parseObjectKey =>
        if c = ':' then
          ({ s with parseState := ParseState.parseObjectValue :: rest,
                    step := Step.stateBeginValue }, ScanCode.scanObjectKey)
        else s.error c "after object key"
      | ParseState.parseObjectValue =>
        if c = ',' then
          ({ s with parseState := ParseState.parseObjectKey :: rest,
                    step := Step.stateBeginString }, ScanCode.scanObjectValue)
        else if c = '}' then (s.popParseState, ScanCode.scanEndObject)
        else s.error c "after object key:value pair"
      | ParseState.parseArrayValue =>
        if c = ',' then ({ s with step := Step.stateBeginValue }, ScanCode.scanArrayValue)
        else if c = ']' then (s.popParseState, ScanCode.scanEndArray)
        else s.error c "after array element"

def stateBeginValue (s : scanner) (c : Char) : scanner × ScanCode :=
  if isSpace c then (s, ScanCode.scanSkipSpace)
  else if c = '{' then
    { s with step := Step.stateBeginStringOrEmpty }.pushParseState c
      ParseState.parseObjectKey ScanCode.scanBeginObject
  else if c = '[' then
    { s with step := Step.stateBeginValueOrEmpty }.pushParseState c
      ParseState.parseArrayValue ScanCode.scanBeginArray
  else if c = '"' then ({ s with step := Step.stateInString }, ScanCode.scanBeginLiteral)
  else if c = '-' then ({ s with step := Step.stateNeg }, ScanCode.scanBeginLiteral)
  else if c = '0' then ({ s with step := Step.state0 }, ScanCode.scanBeginLiteral)
  else if c = 't' then ({ s with step := Step.stateT }, ScanCode.scanBeginLiteral)
  else if c = 'f' then ({ s with step := Step.stateF }, ScanCode.scanBeginLiteral)
  else if c = 'n' then ({ s with step := Step.stateN }, ScanCode.scanBeginLiteral)
  else if '1' ≤ c && c ≤ '9' then ({ s with step := Step.state1 }, ScanCode.scanBeginLiteral)
  else s.error c "looking for beginning of value"

def stateBeginValueOrEmpty (s : scanner) (c : Char) : scanner × ScanCode :=
  if isSpace c then (s, ScanCode.scanSkipSpace)
  else if c = ']' then stateEndValue s c
  else stateBeginValue s c

def stateBeginString (s : scanner) (c : Char) : scanner × ScanCode :=
  if isSpace c then (s, ScanCode.scanSkipSpace)
  else if c = '"' then ({ s with step := Step.stateInString }, ScanCode.scanBeginLiteral)
  else s.error c "looking for beginning of object key string"

def stateBeginStringOrEmpty (s : scanner) (c : Char) : scanner × ScanCode :=
  if isSpace c then (s, ScanCode.scanSkipSpace)
  else if c = '}' then
    stateEndValue { s with parseState := ParseState.parseObjectValue :: s.parseState.tail } c
  else stateBeginString s c

def stateInString (s : scanner) (c : Char) : scanner × ScanCode :=
  if c = '"' then ({ s with step := Step.stateEndValue }, ScanCode.scanContinue)
  else if c = '\\' then ({ s with step := Step.stateInStringEsc }, ScanCode.scanContinue)
  else if c.toNat < 0x20 then s.error c "in string literal"
  else (s, ScanCode.scanContinue)

def stateInStringEsc (s : scanner) (c : Char) : scanner × ScanCode :=
  if c = 'b' ∨ c = 'f' ∨ c = 'n' ∨ c = 'r' ∨ c = 't' ∨ c = '\\' ∨ c = '/' ∨ c = '"' then
    ({ s with step := Step.stateInString }, ScanCode.scanContinue)
  else if c = 'u' then ({ s with step := Step.stateInStringEscU }, ScanCode.scanContinue)
  else s.error c "in string escape code"

/-- The four states `stateInStringEscU`, `...U1`, `...U12`, `...U123`: one
hexadecimal digit each, `next` being the state after it. -/
def stateInStringEscHex (next : Step) (s : scanner) (c : Char) : scanner × ScanCode :=
  if isHex c then ({ s with step := next }, ScanCode.scanContinue)
  else s.error c "in \\u hexadecimal character escape"

def state0 (s : scanner) (c : Char) : scanner × ScanCode :=
  if c = '.' then ({ s with step := Step.stateDot }, ScanCode.scanContinue)
  else if c = 'e' ∨ c = 'E' then ({ s with step := Step.stateE }, ScanCode.scanContinue)
  else stateEndValue s c

def state1 (s : scanner) (c : Char) : scanner × ScanCode :=
  if isDigit c then ({ s with step := Step.state1 }, ScanCode.scanContinue)
  else state0 s c

def stateNeg (s : scanner) (c : Char) : scanner × ScanCode :=
  if c = '0' then ({ s with step := Step.state0 }, ScanCode.scanContinue)
  else if '1' ≤ c && c ≤ '9' then ({ s with step := Step.state1 }, ScanCode.scanContinue)
  else s.error c "in numeric literal"

def stateDot (s : scanner) (c : Char) : scanner × ScanCode :=
  if isDigit c then ({ s with step := Step.stateDot0 }, ScanCode.scanContinue)
  else s.error c "after decimal point in numeric literal"

def stateDot0 (s : scanner) (c : Char) : scanner × ScanCode :=
  if isDigit c then (s, ScanCode.scanContinue)
  else if c = 'e' ∨ c = 'E' then ({ s with step := Step.stateE }, ScanCode.scanContinue)
  else stateEndValue s c

def stateESign (s : scanner) (c : Char) : scanner × ScanCode :=
  if isDigit c then ({ s with step := Step.stateE0 }, ScanCode.scanContinue)
  else s.error c "in exponent of numeric literal"

def stateE (s : scanner) (c : Char) : scanner × ScanCode :=
  if c = '+' ∨ c = '-' then ({ s with step := Step.stateESign }, ScanCode.scanContinue)
  else stateESign s c

def stateE0 (s : scanner) (c : Char) : scanner × ScanCode :=
  if isDigit c then (s, ScanCode.scanContinue)
  else stateEndValue s c

/-- The states inside the literals `true`, `false` and `null`: the next
character must be `want`. -/
def stateLiteral (want : Char) (next : Step) (context : String) (s : scanner) (c : Char) :
    scanner × ScanCode :=
  if c = want then ({ s with step := next }, ScanCode.scanContinue)
  else s.error c context

/-- Call `s.step(s, c)`. -/
def scanner.apply (s : scanner) (c : Char) : scanner × ScanCode :=
  match s.step with
  | Step.stateBeginValueOrEmpty => stateBeginValueOrEmpty s c
  | Step.stateBeginValue => stateBeginValue s c
  | Step.stateBeginStringOrEmpty => stateBeginStringOrEmpty s c
  | Step.stateBeginString => stateBeginString s c
  | Step.stateEndValue => stateEndValue s c
  | Step.stateEndTop => stateEndTop s c
  | Step.stateInString => stateInString s c
  | Step.stateInStringEsc => stateInStringEsc s c
  | Step.stateInStringEscU => stateInStringEscHex Step.stateInStringEscU1 s c
  | Step.stateInStringEscU1 => stateInStringEscHex Step.stateInStringEscU12 s c
  | Step.stateInStringEscU12 => stateInStringEscHex Step.stateInStringEscU123 s c
  | Step.stateInStringEscU123 => stateInStringEscHex Step.stateInString s c
  | Step.stateNeg => stateNeg s c
  | Step.state1 => state1 s c
  | Step.state0 => state0 s c
  | Step.stateDot => stateDot s c
  | Step.stateDot0 => stateDot0 s c
  | Step.stateE => stateE s c
  | Step.stateESign => stateESign s c
  | Step.stateE0 => stateE0 s c
  | Step.stateT => stateLiteral 'r' Step.stateTr "in literal true (expecting 'r')" s c
  | Step.stateTr => stateLiteral 'u' Step.stateTru "in literal true (expecting 'u')" s c
  | Step.stateTru => stateLiteral 'e' Step.stateEndValue "in literal true (expecting 'e')" s c
  | Step.stateF => stateLiteral 'a' Step.stateFa "in literal false (expecting 'a')" s c
  | Step.stateFa => stateLiteral 'l' Step.stateFal "in literal false (expecting 'l')" s c
  | Step.stateFal => stateLiteral 's' Step.stateFals "in literal false (expecting 's')" s c
  | Step.stateFals => stateLiteral 'e' Step.stateEndValue "in literal false (expecting 'e')" s c
  | Step.stateN => stateLiteral 'u' Step.stateNu "in literal null (expecting 'u')" s c
  | Step.stateNu => stateLiteral 'l' Step.stateNul "in literal null (expecting 'l')" s c
  | Step.stateNul => stateLiteral 'l' Step.stateEndValue "in literal null (expecting 'l')" s c
  | Step.stateError => (s, ScanCode.scanError)

/-! ## encoding/json: the stream decoder (stream.go, decode.go) -/

/-- The scanning loop of `Decoder.readValue` over a body that is read
completely: `n` characters are consumed so far; the result is the length of
the first value (leading space included). -/
def readValueLoop (s : scanner) (n : Nat) (nonSpace : Bool) : List Char → Except DecodeError Nat
  | [] =>
    if (s.apply ' ').2 = ScanCode.scanEnd then Except.ok n
    else if nonSpace then Except.error DecodeError.unexpectedEOF
    else Except.error DecodeError.eof
  | c :: cs =>
    let r := s.apply c
    match r.2 with
    | ScanCode.scanEnd => Except.ok n
    | ScanCode.scanEndObject | ScanCode.scanEndArray =>
      let r2 := stateEndValue r.1 ' '
      if r2.2 = ScanCode.scanEnd then Except.ok (n + 1)
      else readValueLoop r2.1 (n + 1) nonSpace cs
    | ScanCode.scanError =>
      match r.1.err with
      | some e => Except.error e
      | none => Except.error DecodeError.unexpectedEOF
    | _ => readValueLoop r.1 (n + 1) nonSpace cs

/-- Method `Decoder.readValue` on a fresh decoder whose reader yields `body`
and then `io.EOF`. -/
def readValue (body : List Char) : Except DecodeError Nat :=
  readValueLoop scanner.reset 0 (body.any (fun c => !isSpace c)) body

def hexVal (c : Char) : Nat :=
  if '0' ≤ c ∧ c ≤ '9' then c.toNat - 48
  else if 'a' ≤ c ∧ c ≤ 'f' then c.toNat - 87
  else if 'A' ≤ c ∧ c ≤ 'F' then c.toNat - 55
  else 0

/-- Function `getu4` on the four characters after a backslash and `u`. -/
def getu4 (a b c d : Char) : Option Nat :=
  if isHex a && isHex b && isHex c && isHex d then
    some (((hexVal a * 16 + hexVal b) * 16 + hexVal c) * 16 + hexVal d)
  else none

def isSurrogate (r : Nat) : Bool := 0xD800 ≤ r && r < 0xE000

/-- Function `utf16.DecodeRune`: the code point of a surrogate pair, or
U+FFFD when the two halves do not form one. -/
def utf16DecodeRune (r1 r2 : Nat) : Nat :=
  if 0xD800 ≤ r1 ∧ r1 < 0xDC00 ∧ 0xDC00 ≤ r2 ∧ r2 < 0xE000 then
    (r1 - 0xD800) * 1024 + (r2 - 0xDC00) + 0x10000
  else 0xFFFD

def unescape (c : Char) : Char :=
  if c = 'b' then Char.ofNat 8
  else if c = 'f' then Char.ofNat 12
  else if c = 'n' then '\n'
  else if c = 'r' then '\r'
  else if c = 't' then '\t'
  else c

/-- The inside of a string literal with the escapes resolved: the loop of
`unquoteBytes`, on a literal the scanner has accepted (so every escape is
well formed). After a backslash and `u` come four hexadecimal digits; a
surrogate half that is not followed by its other half becomes U+FFFD. -/
def unquoteChars : List Char → List Char
  | [] => []
  | [c] => [c]
  | c :: x :: tail =>
    if c ≠ '\\' then c :: unquoteChars (x :: tail)
    else if x ≠ 'u' then unescape x :: unquoteChars tail
    else
      match tail with
      | h1 :: h2 :: h3 :: h4 :: tail1 =>
        let alone := unquoteChars tail1
        match getu4 h1 h2 h3 h4 with
        | none => Char.ofNat 0xFFFD :: alone
        | some rr =>
          if isSurrogate rr then
            match tail1 with
            | b :: u :: l1 :: l2 :: l3 :: l4 :: tail2 =>
              match (if b = '\\' ∧ u = 'u' then getu4 l1 l2 l3 l4 else none) with
              | some rr1 =>
                if utf16DecodeRune rr rr1 ≠ 0xFFFD then
                  Char.ofNat (utf16DecodeRune rr rr1) :: unquoteChars tail2
                else Char.ofNat 0xFFFD :: alone
              | none => Char.ofNat 0xFFFD :: alone
            | _ => Char.ofNat 0xFFFD :: alone
          else Char.ofNat rr :: alone
      | _ => [Char.ofNat 0xFFFD]

/-- Function `unquote` on a literal that starts and ends with a double quote. -/
def unquote (item : List Char) : String :=
  String.mk (unquoteChars (item.tail.dropLast))

/-- Method `decodeState.unmarshal` into a `*string` whose target holds
`target`, on the value read by `readValue`: the new content of the target and
the error returned. A JSON string is stored; a JSON `null` leaves a Go string
as it is and is no error; any other value is an `UnmarshalTypeError`. (The
value read by `readValue` always has a character that is not white space, so
the first case does not arise.) -/
def unmarshalString (data : List Char) (target : String) : String × Option DecodeError :=
  match data.dropWhile isSpace with
  | [] => (target, some DecodeError.unexpectedEOF)
  | c :: rest =>
    if c = '[' then (target, some (DecodeError.unmarshalType "array"))
    else if c = '{' then (target, some (DecodeError.unmarshalType "object"))
    else if c = 'n' then (target, none)
    else if c = 't' ∨ c = 'f' then (target, some (DecodeError.unmarshalType "bool"))
    else if c = '"' then (unquote (c :: rest), none)
    else (target, some (DecodeError.unmarshalType "number"))

/-- Call `err := json.NewDecoder(body).Decode(&v)` for a string variable `v`
that holds `target`: the content of `v` afterwards, and `err`. -/
def Decode (body : String) (target : String) : String × Option DecodeError :=
  match readValue body.toList with
  | Except.error e => (target, some e)
  | Except.ok n => unmarshalString (body.toList.take n) target

/-! ## net/http: the response writer -/

def StatusOK : Nat := 200
def StatusTeapot : Nat := 418

/-- What the handler has written: the status line (once written), the headers
it set, and the body. -/
structure ResponseWriter where
  status : Option Nat
  header : List (String × String)
  body : String
  deriving DecidableEq, Repr

def ResponseWriter.new : ResponseWriter := ⟨none, [], ""⟩

/-- Call `w.Header().Set(key, value)`. -/
def ResponseWriter.Set (w : ResponseWriter) (key value : String) : ResponseWriter :=
  { w with header := (w.header.filter (fun kv => kv.1 != key)) ++ [(key, value)] }

/-- Call `w.WriteHeader(code)`: only the first call sets the status. -/
def ResponseWriter.WriteHeader (w : ResponseWriter) (code : Nat) : ResponseWriter :=
  match w.status with
  | none => { w with status := some code }
  | some _ => w

/-- Call `w.Write(data)`: writes the status 200 first if none was written. -/
def ResponseWriter.Write (w : ResponseWriter) (data : String) : ResponseWriter :=
  let w1 := w.WriteHeader StatusOK
  { w1 with body := w1.body ++ data }

/-- Function `http.Error(w, error, code)`. -/
def httpError (w : ResponseWriter) (error : String) (code : Nat) : ResponseWriter :=
  let w1 := w.Set "Content-Type" "text/plain; charset=utf-8"
  let w2 := w1.Set "X-Content-Type-Options" "nosniff"
  let w3 := w2.WriteHeader code
  w3.Write (error ++ "\n")

/-- Call `json.NewEncoder(w).Encode(v)` for a string `v`: the JSON text and a newline. -/
def Encode (w : ResponseWriter) (v : String) : ResponseWriter :=
  w.Write (marshalString v ++ "\n")

/-! ## Transport configuration -/

/-- Modelled from the spec: the type `HTTPConfig` is declared outside the two
source files; the spec gives its fields as port, certFile, keyFile and
caCertFile. -/
structure HTTPConfig where
  port : Int
  certFile : String
  keyFile : String
  caCertFile : String
  deriving DecidableEq, Repr

/-- Modelled from the spec: the method `HTTPConfig.isSecure` is declared outside
the two source files; the spec says it is true iff the cert and key files are
both set. -/
def HTTPConfig.isSecure (c : HTTPConfig) : Bool :=
  c.certFile != "" && c.keyFile != ""

/-! ## ping_server.go -/

structure pingServer where
  config : HTTPConfig
  errorRate : Float64

/-- The `/ping` handler registered by `pingServer.Start`, run on a fresh
response writer; `f` is the value returned by `ps.randomGenerator.Float64()`
and `remoteAddr` is `r.RemoteAddr`. Returns the response and the log calls. -/
def pingServer.handlePing (ps : pingServer) (f : Float64) (remoteAddr : String) :
    ResponseWriter × List LogEntry :=
  let w := ResponseWriter.new
  if f.lt ps.errorRate then
    (httpError w "no wai!" StatusTeapot, [])
  else
    let w1 := Encode w "pong"
    (w1, [⟨Level.info, "Got pinged by '%s', sent a 'pong'!", [Arg.str remoteAddr]⟩])

/-- The handler run on a sequence of requests, each with its own draw and
remote address. -/
def pingServer.serve (ps : pingServer) (requests : List (Float64 × String)) :
    List (ResponseWriter × List LogEntry) :=
  requests.map (fun r => ps.handlePing r.1 r.2)

/-- Which `net/http` serve function is called, and with what. -/
inductive ServeCall where
  | ListenAndServe (addr : String)
  | ListenAndServeTLS (addr certFile keyFile : String)
  deriving DecidableEq, Repr

/-- Method `pingServer.listenAndServe`. -/
def pingServer.listenAndServe (ps : pingServer) : ServeCall :=
  let address := ":" ++ toString ps.config.port
  if !ps.config.isSecure then
    ServeCall.ListenAndServe address
  else
    ServeCall.ListenAndServeTLS address ps.config.certFile ps.config.keyFile

/-! ## ping_client.go -/

/-- The fields of `http.Response` the client reads. -/
structure Response where
  StatusCode : Int
  Status : String
  Body : String
  deriving DecidableEq, Repr

/-- Outcome of `client.Get`: an error (its text) or a response. -/
abbrev GetResult := Except String Response

/-- What a probe does, in order. -/
inductive Event where
  | get (url : String)
  | log (entry : LogEntry)
  | decode (body : String)
  | closeBody
  deriving DecidableEq, Repr

structure pingClient where
  addresses : List String
  interval : Int

/-- Method `pingClient.pingAddress`; `client url` is the outcome of
`pc.client.Get(url)`. -/
def pingClient.pingAddress (client : String → GetResult) (address : String) : List Event :=
  let url := address ++ "/ping"
  match client url with
  | Except.error err =>
    [Event.get url,
     Event.log ⟨Level.info, "Couldn't ping %s: %s", [Arg.str address, Arg.transportErr err]⟩]
  | Except.ok response =>
    if response.StatusCode ≠ 200 then
      [Event.get url,
       Event.log ⟨Level.error, "Got non-ok response code: '%v'", [Arg.int response.StatusCode]⟩,
       Event.closeBody]
    else
      let pingAnswer := ""
      let decoded := Decode response.Body pingAnswer
      let pingAnswer := decoded.1
      let err := decoded.2
      let errLog : List Event :=
        match err with
        | some e =>
          [Event.log ⟨Level.error, "error decoding json response: '%v'", [Arg.decodeErr e]⟩]
        | none => []
      [Event.get url, Event.decode response.Body] ++ errLog ++
        [Event.log ⟨Level.info, "Pinged %s, got response: %s, \"%s\"",
           [Arg.str address, Arg.str response.Status, Arg.str pingAnswer]⟩,
         Event.closeBody]

/-- The inner loop of `pingClient.Start`, one tick: `client k url` is the
outcome of the request number `k` of the tick; `k` is the number of requests
already made. -/
def pingClient.tickFrom (client : Nat → String → GetResult) : Nat → List String → List Event
  | _, [] => []
  | k, address :: rest =>
    pingClient.pingAddress (client k) address ++ pingClient.tickFrom client (k + 1) rest

def pingClient.tick (pc : pingClient) (client : Nat → String → GetResult) : List Event :=
  pingClient.tickFrom client 0 pc.addresses

/-- Constant `time.Second`, in nanoseconds. -/
def Second : Int := 1000000000

/-- A mathematical integer as the `int64` with the same low 64 bits. -/
def wrapInt64 (x : Int) : Int := (x + 2 ^ 63) % 2 ^ 64 - 2 ^ 63

def inInt64 (x : Int) : Prop := -(2 : Int) ^ 63 ≤ x ∧ x < (2 : Int) ^ 63

instance (x : Int) : Decidable (inInt64 x) := by unfold inInt64; infer_instance

/-- The argument of `time.Tick` in `Start`: `time.Duration(pc.interval) * time.Second`. -/
def pingClient.period (pc : pingClient) : Int := wrapInt64 (pc.interval * Second)

/-- Function `time.Tick`: no channel (`none`) for a duration that is not
positive, else a channel that delivers a tick every `d` nanoseconds. -/
def Tick (d : Int) : Option Int := if d ≤ 0 then none else some d

/-- Method `pingClient.Start`, watched for the first `ticks` ticks; `client t`
is the network during tick `t`. With no channel the loop waits forever and
nothing happens. -/
def pingClient.Start (pc : pingClient) (ticks : Nat)
    (client : Nat → Nat → String → GetResult) : List Event :=
  match Tick pc.period with
  | none => []
  | some _ => (List.range ticks).flatMap (fun t => pc.tick (client t))

/-- What `NewPingClient` reads from outside the program. -/
structure ClientEnv where
  /-- Whether `zap.NewDevelopment()` returns an error. -/
  zapFails : Bool
  /-- Outcome of `ioutil.ReadFile`: `none` for an error. -/
  readFile : String → Option String
  /-- Whether `x509.SystemCertPool()` returns an error. -/
  certPoolFails : Bool

/-- Function `NewPingClient`: `none` when construction ends the process
(`log.Fatalf`, `sugar.Fatal`). The HTTP client it builds (the default one, or
one that also trusts the CA file) is the network given to `Start`; the
addresses and the interval are stored as they are given. -/
def NewPingClient (env : ClientEnv) (serverConfig : HTTPConfig) (addresses : List String)
    (interval : Int) : Option pingClient :=
  if env.zapFails then none
  else if serverConfig.caCertFile ≠ "" then
    match env.readFile serverConfig.caCertFile with
    | none => none
    | some _ => if env.certPoolFails then none else some ⟨addresses, interval⟩
  else some ⟨addresses, interval⟩

/-- The URLs requested, in order. -/
def requests : List Event → List String
  | [] => []
  | Event.get url :: rest => url :: requests rest
  | _ :: rest => requests rest

/-- The log entries written, in order. -/
def logs : List Event → List LogEntry
  | [] => []
  | Event.log e :: rest => e :: logs rest
  | _ :: rest => logs rest

/-- The bodies handed to the JSON decoder, in order. -/
def decodes : List Event → List String
  | [] => []
  | Event.decode b :: rest => b :: decodes rest
  | _ :: rest => decodes rest

/-- Spec side: the characters after an opening double quote are the rest of
one JSON string literal (RFC 8259), followed by white space only. -/
def jsonStringRest : List Char → Bool
  | [] => false
  | [c] => c = '"'
  | c :: x :: tail =>
    if c = '"' then (x :: tail).all isSpace
    else if c = '\\' then
      if x = 'u' then
        match tail with
        | h1 :: h2 :: h3 :: h4 :: tail1 =>
          isHex h1 && isHex h2 && isHex h3 && isHex h4 && jsonStringRest tail1
        | _ => false
      else
        (x = '"' || x = '\\' || x = '/' || x = 'b' || x = 'f' || x = 'n' || x = 'r' || x = 't')
          && jsonStringRest tail
    else decide (0x20 ≤ c.toNat) && jsonStringRest (x :: tail)

/-- Spec side: the body is a JSON string, that is a JSON text whose one value
is a string literal. -/
def isJSONString (body : String) : Bool :=
  match body.toList.dropWhile isSpace with
  | [] => false
  | c :: rest => c = '"' && jsonStringRest rest

/-- The log entry of a successful probe. -/
def pingedEntry (address status pingAnswer : String) : LogEntry :=
  ⟨Level.info, "Pinged %s, got response: %s, \"%s\"",
    [Arg.str address, Arg.str status, Arg.str pingAnswer]⟩

end Pinger

open Pinger

/-! ## Lemmas -/

theorem lt_zero_of_inUnit (f : Float64) (h : f.inUnit = true) :
    f.lt (Float64.finite 0) = false := by
  cases f with
  | finite q =>
    simp only [Float64.inUnit, Bool.and_eq_true, decide_eq_true_eq] at h
    simp only [Float64.lt, decide_eq_false_iff_not, not_lt]
    exact h.1
  | nan => rfl
  | negInf => simp [Float64.inUnit] at h
  | posInf => rfl

theorem lt_one_of_inUnit (f : Float64) (h : f.inUnit = true) :
    f.lt (Float64.finite 1) = true := by
  cases f with
  | finite q =>
    simp only [Float64.inUnit, Bool.and_eq_true, decide_eq_true_eq] at h
    simp only [Float64.lt, decide_eq_true_eq]
    exact h.2
  | nan => simp [Float64.inUnit] at h
  | negInf => rfl
  | posInf => simp [Float64.inUnit] at h

theorem teapot_response :
    httpError ResponseWriter.new "no wai!" StatusTeapot =
      ⟨some 418, [("Content-Type", "text/plain; charset=utf-8"),
                  ("X-Content-Type-Options", "nosniff")], "no wai!\n"⟩ := by
  decide

theorem pong_response :
    Encode ResponseWriter.new "pong" = ⟨some 200, [], "\"pong\"\n"⟩ := by
  decide

theorem handlePing_of_lt (ps : pingServer) (f : Float64) (remoteAddr : String)
    (h : f.lt ps.errorRate = true) :
    ps.handlePing f remoteAddr = (httpError ResponseWriter.new "no wai!" StatusTeapot, []) := by
  simp [pingServer.handlePing, h]

theorem handlePing_of_not_lt (ps : pingServer) (f : Float64) (remoteAddr : String)
    (h : f.lt ps.errorRate = false) :
    ps.handlePing f remoteAddr =
      (Encode ResponseWriter.new "pong",
        [⟨Level.info, "Got pinged by '%s', sent a 'pong'!", [Arg.str remoteAddr]⟩]) := by
  simp [pingServer.handlePing, h]

theorem requests_append (xs ys : List Event) :
    requests (xs ++ ys) = requests xs ++ requests ys := by
  induction xs with
  | nil => rfl
  | cons e xs ih => cases e <;> simp [requests, ih]

theorem logs_append (xs ys : List Event) : logs (xs ++ ys) = logs xs ++ logs ys := by
  induction xs with
  | nil => rfl
  | cons e xs ih => cases e <;> simp [logs, ih]

theorem pingAddress_transport_error (client : String → GetResult) (address err : String)
    (h : client (address ++ "/ping") = Except.error err) :
    pingClient.pingAddress client address =
      [Event.get (address ++ "/ping"),
       Event.log ⟨Level.info, "Couldn't ping %s: %s", [Arg.str address, Arg.transportErr err]⟩] := by
  simp only [pingClient.pingAddress, h]

theorem pingAddress_non_ok (client : String → GetResult) (address : String) (response : Response)
    (h : client (address ++ "/ping") = Except.ok response) (hs : response.StatusCode ≠ 200) :
    pingClient.pingAddress client address =
      [Event.get (address ++ "/ping"),
       Event.log ⟨Level.error, "Got non-ok response code: '%v'", [Arg.int response.StatusCode]⟩,
       Event.closeBody] := by
  simp only [pingClient.pingAddress, h, hs, ne_eq, not_false_eq_true, if_true]

theorem pingAddress_decoded (client : String → GetResult) (address : String) (response : Response)
    (h : client (address ++ "/ping") = Except.ok response) (hs : response.StatusCode = 200)
    (hd : (Decode response.Body "").2 = none) :
    pingClient.pingAddress client address =
      [Event.get (address ++ "/ping"), Event.decode response.Body,
       Event.log (pingedEntry address response.Status (Decode response.Body "").1),
       Event.closeBody] := by
  simp [pingClient.pingAddress, h, hs, hd, pingedEntry]

theorem pingAddress_decode_error (client : String → GetResult) (address : String)
    (response : Response) (e : DecodeError)
    (h : client (address ++ "/ping") = Except.ok response) (hs : response.StatusCode = 200)
    (hd : (Decode response.Body "").2 = some e) :
    pingClient.pingAddress client address =
      [Event.get (address ++ "/ping"), Event.decode response.Body,
       Event.log ⟨Level.error, "error decoding json response: '%v'", [Arg.decodeErr e]⟩,
       Event.log (pingedEntry address response.Status (Decode response.Body "").1),
       Event.closeBody] := by
  simp [pingClient.pingAddress, h, hs, hd, pingedEntry]

theorem requests_pingAddress (client : String → GetResult) (address : String) :
    requests (pingClient.pingAddress client address) = [address ++ "/ping"] := by
  cases h : client (address ++ "/ping") with
  | error err => rw [pingAddress_transport_error client address err h]; rfl
  | ok response =>
    by_cases hs : response.StatusCode = 200
    · cases hd : (Decode response.Body "").2 with
      | none => rw [pingAddress_decoded client address response h hs hd]; rfl
      | some e => rw [pingAddress_decode_error client address response e h hs hd]; rfl
    · rw [pingAddress_non_ok client address response h hs]; rfl

theorem requests_tickFrom (client : Nat → String → GetResult) (addresses : List String) :
    ∀ k, requests (pingClient.tickFrom client k addresses) =
      addresses.map (fun address => address ++ "/ping") := by
  induction addresses with
  | nil => intro k; rfl
  | cons a rest ih =>
    intro k
    simp [pingClient.tickFrom, requests_append, requests_pingAddress, ih]

theorem tickFrom_append (client : Nat → String → GetResult) (xs ys : List String) :
    ∀ k, pingClient.tickFrom client k (xs ++ ys) =
      pingClient.tickFrom client k xs ++ pingClient.tickFrom client (k + xs.length) ys := by
  induction xs with
  | nil => intro k; simp [pingClient.tickFrom]
  | cons a rest ih =>
    intro k
    have hk : k + 1 + rest.length = k + (rest.length + 1) := by omega
    rw [List.cons_append, List.length_cons]
    simp only [pingClient.tickFrom]
    rw [ih, hk, List.append_assoc]

theorem unmarshalString_error (data : List Char) (target : String)
    (h : (unmarshalString data target).2 ≠ none) : (unmarshalString data target).1 = target := by
  unfold unmarshalString at h ⊢
  split
  · rfl
  · split_ifs <;> simp_all

theorem Decode_error (body target : String) (h : (Decode body target).2 ≠ none) :
    (Decode body target).1 = target := by
  unfold Decode at h ⊢
  split
  · rfl
  · rename_i n hn
    simp only [hn] at h
    exact unmarshalString_error _ _ h

theorem NewPingClient_eq (env : ClientEnv) (serverConfig : HTTPConfig)
    (addresses : List String) (interval : Int) (pc : pingClient)
    (h : NewPingClient env serverConfig addresses interval = some pc) :
    pc = ⟨addresses, interval⟩ := by
  unfold NewPingClient at h
  by_cases hz : env.zapFails = true
  · simp [hz] at h
  · by_cases hca : serverConfig.caCertFile = ""
    · simp [hz, hca] at h
      exact h.symm
    · cases hr : env.readFile serverConfig.caCertFile with
      | none => simp [hz, hca, hr] at h
      | some _ =>
        by_cases hp : env.certPoolFails = true
        · simp [hz, hca, hr, hp] at h
        · simp [hz, hca, hr, hp] at h
          exact h.symm

theorem Decode_samples :
    Decode "\"pong\"\n" "" = ("pong", none) ∧
    Decode "null" "" = ("", none) ∧
    Decode "12" "" = ("", some (DecodeError.unmarshalType "number")) ∧
    Decode "true" "" = ("", some (DecodeError.unmarshalType "bool")) ∧
    Decode "[1, [\"a\", null]]  " "" = ("", some (DecodeError.unmarshalType "array")) ∧
    Decode "" "" = ("", some DecodeError.eof) ∧
    Decode "\"abc" "" = ("", some DecodeError.unexpectedEOF) ∧
    Decode "pong" ""
      = ("", some (DecodeError.invalidCharacter 'p' "looking for beginning of value")) ∧
    Decode "\"a\\u00e9\\n\\ud83d\\ude00\"" "" = ("aé\n😀", none) ∧
    Decode (marshalString "a<\"\\\n\tb" ++ "\n") "" = ("a<\"\\\n\tb", none) := by
  decide

/-! ## The Responder -/

/-- C1: for every error rate and every draw `f` (in particular every draw in
[0,1)), the `/ping` handler answers 418 exactly when `f` is below the error
rate; in that case the response is the one `http.Error` writes for the message
"no wai!" (the message and a newline) and nothing is logged; otherwise the
response is status 200 with the JSON text of "pong" (and a newline) and the one
log entry carries the caller's address. -/
theorem handlePing_teapot_iff_below (ps : pingServer) (f : Float64) (remoteAddr : String) :
    ((ps.handlePing f remoteAddr).1.status = some StatusTeapot ↔ f.lt ps.errorRate = true) ∧
    ((ps.handlePing f remoteAddr).1.status = some StatusOK ↔ f.lt ps.errorRate = false) ∧
    ps.handlePing f remoteAddr =
      if f.lt ps.errorRate = true then
        (⟨some 418, [("Content-Type", "text/plain; charset=utf-8"),
                     ("X-Content-Type-Options", "nosniff")], "no wai!" ++ "\n"⟩, [])
      else
        (⟨some 200, [], marshalString "pong" ++ "\n"⟩,
          [⟨Level.info, "Got pinged by '%s', sent a 'pong'!", [Arg.str remoteAddr]⟩]) := by
  cases h : f.lt ps.errorRate
  · rw [handlePing_of_not_lt ps f remoteAddr h, pong_response]
    refine ⟨?_, ?_, ?_⟩
    · simp [StatusTeapot]
    · simp [StatusOK]
    · simp only [Bool.false_eq_true, if_false]
      rfl
  · rw [handlePing_of_lt ps f remoteAddr h, teapot_response]
    refine ⟨?_, ?_, ?_⟩
    · simp [StatusTeapot]
    · simp [StatusOK]
    · simp only [if_true]
      rfl

/-- C2: with `errorRate = 0`, for every number of requests and every draw in
[0,1), there is one response per request and each one is status 200 with the
body `"pong"` (JSON text and newline); none is the teapot status. -/
theorem serve_errorRate_zero (config : HTTPConfig) (reqs : List (Float64 × String))
    (hdraw : ∀ r ∈ reqs, r.1.inUnit = true) :
    ((pingServer.mk config (Float64.finite 0)).serve reqs).length = reqs.length ∧
    ∀ out ∈ (pingServer.mk config (Float64.finite 0)).serve reqs,
      out.1.status = some StatusOK ∧ out.1.body = "\"pong\"\n" ∧
      out.1.status ≠ some StatusTeapot := by
  refine ⟨by simp [pingServer.serve], ?_⟩
  intro out hout
  simp only [pingServer.serve, List.mem_map] at hout
  obtain ⟨r, hr, rfl⟩ := hout
  have hlt := lt_zero_of_inUnit r.1 (hdraw r hr)
  rw [handlePing_of_not_lt _ r.1 r.2 hlt, pong_response]
  simp [StatusOK, StatusTeapot]

theorem serve_errorRate_zero_witness :
    ((pingServer.mk ⟨8080, "", "", ""⟩ (Float64.finite 0)).serve
        [(Float64.finite 0, "10.0.0.1:5000"), (Float64.finite (1 / 2), "10.0.0.2:5000")]).length
      = 2 ∧
    ∀ out ∈ (pingServer.mk ⟨8080, "", "", ""⟩ (Float64.finite 0)).serve
        [(Float64.finite 0, "10.0.0.1:5000"), (Float64.finite (1 / 2), "10.0.0.2:5000")],
      out.1.status = some StatusOK ∧ out.1.body = "\"pong\"\n" ∧
      out.1.status ≠ some StatusTeapot :=
  serve_errorRate_zero ⟨8080, "", "", ""⟩
    [(Float64.finite 0, "10.0.0.1:5000"), (Float64.finite (1 / 2), "10.0.0.2:5000")]
    (by
      intro r hr
      simp only [List.mem_cons, List.mem_singleton, List.not_mem_nil, or_false] at hr
      rcases hr with rfl | rfl <;> norm_num [Float64.inUnit])

/-- C3: with `errorRate = 1`, for every number of requests and every draw in
[0,1), there is one response per request and each one is status 418; none
carries the `"pong"` body and none is status 200. -/
theorem serve_errorRate_one (config : HTTPConfig) (reqs : List (Float64 × String))
    (hdraw : ∀ r ∈ reqs, r.1.inUnit = true) :
    ((pingServer.mk config (Float64.finite 1)).serve reqs).length = reqs.length ∧
    ∀ out ∈ (pingServer.mk config (Float64.finite 1)).serve reqs,
      out.1.status = some StatusTeapot ∧ out.1.body ≠ "\"pong\"\n" ∧
      out.1.status ≠ some StatusOK ∧ out.2 = [] := by
  refine ⟨by simp [pingServer.serve], ?_⟩
  intro out hout
  simp only [pingServer.serve, List.mem_map] at hout
  obtain ⟨r, hr, rfl⟩ := hout
  have hlt := lt_one_of_inUnit r.1 (hdraw r hr)
  rw [handlePing_of_lt _ r.1 r.2 hlt, teapot_response]
  refine ⟨by simp [StatusTeapot], by decide, by simp [StatusOK], rfl⟩

theorem serve_errorRate_one_witness :
    ((pingServer.mk ⟨8080, "", "", ""⟩ (Float64.finite 1)).serve
        [(Float64.finite 0, "10.0.0.1:5000"), (Float64.finite (1 / 2), "10.0.0.2:5000")]).length
      = 2 ∧
    ∀ out ∈ (pingServer.mk ⟨8080, "", "", ""⟩ (Float64.finite 1)).serve
        [(Float64.finite 0, "10.0.0.1:5000"), (Float64.finite (1 / 2), "10.0.0.2:5000")],
      out.1.status = some StatusTeapot ∧ out.1.body ≠ "\"pong\"\n" ∧
      out.1.status ≠ some StatusOK ∧ out.2 = [] :=
  serve_errorRate_one ⟨8080, "", "", ""⟩
    [(Float64.finite 0, "10.0.0.1:5000"), (Float64.finite (1 / 2), "10.0.0.2:5000")]
    (by
      intro r hr
      simp only [List.mem_cons, List.mem_singleton, List.not_mem_nil, or_false] at hr
      rcases hr with rfl | rfl <;> norm_num [Float64.inUnit])

/-! ## The Prober -/

/-- C4: in one tick the Prober requests `<target>/ping` for every configured
target exactly once, in list order, duplicates included, whatever the outcome
of each request (transport failure, non-200 status, malformed body, success):
the URLs requested are the target list with "/ping" appended to each element. -/
theorem tick_requests_every_target (pc : pingClient) (client : Nat → String → GetResult) :
    requests (pc.tick client) = pc.addresses.map (fun address => address ++ "/ping") :=
  requests_tickFrom client pc.addresses 0

/-- C5: when the request for a target fails in transport, the probe makes that
one request only (no retry), logs exactly one entry, at informational level,
carrying the target and the error, logs no error-level entry, and the tick
goes on with the remaining targets: the tick is the probes before, this
probe, and the probes of the targets after it, and every target is still
requested. -/
theorem tick_transport_failure (interval : Int) (client : Nat → String → GetResult)
    (pre post : List String) (address err : String)
    (h : client pre.length (address ++ "/ping") = Except.error err) :
    requests (pingClient.pingAddress (client pre.length) address) = [address ++ "/ping"] ∧
    logs (pingClient.pingAddress (client pre.length) address) =
      [⟨Level.info, "Couldn't ping %s: %s", [Arg.str address, Arg.transportErr err]⟩] ∧
    (∀ e ∈ logs (pingClient.pingAddress (client pre.length) address), e.level ≠ Level.error) ∧
    (pingClient.mk (pre ++ address :: post) interval).tick client =
      pingClient.tickFrom client 0 pre ++
        ([Event.get (address ++ "/ping"),
          Event.log ⟨Level.info, "Couldn't ping %s: %s",
            [Arg.str address, Arg.transportErr err]⟩] ++
         pingClient.tickFrom client (pre.length + 1) post) ∧
    requests ((pingClient.mk (pre ++ address :: post) interval).tick client) =
      (pre ++ address :: post).map (fun a => a ++ "/ping") := by
  have hp := pingAddress_transport_error (client pre.length) address err h
  refine ⟨requests_pingAddress _ _, ?_, ?_, ?_, requests_tickFrom client _ 0⟩
  · rw [hp]; rfl
  · rw [hp]
    intro e he
    simp only [logs, List.mem_singleton] at he
    subst he
    simp
  · unfold pingClient.tick
    simp only []
    rw [tickFrom_append client pre (address :: post) 0]
    simp only [pingClient.tickFrom, Nat.zero_add, hp]

theorem tick_transport_failure_witness :
    logs (pingClient.pingAddress
        ((fun _ _ => Except.error "connection refused" : Nat → String → GetResult)
          ["http://a"].length) "http://b") =
      [⟨Level.info, "Couldn't ping %s: %s",
        [Arg.str "http://b", Arg.transportErr "connection refused"]⟩] :=
  (tick_transport_failure 5 (fun _ _ => Except.error "connection refused")
    ["http://a"] ["http://c"] "http://b" "connection refused" rfl).2.1

/-- C6: for every response whose status code is not 200 (201, 204 and 418
included), the probe logs exactly one entry, at error level, carrying the
status code; it never hands the body to the decoder; it logs no
informational (success) entry. -/
theorem pingAddress_non_ok_status (client : String → GetResult) (address : String)
    (response : Response)
    (h : client (address ++ "/ping") = Except.ok response)
    (hs : response.StatusCode ≠ 200) :
    logs (pingClient.pingAddress client address) =
      [⟨Level.error, "Got non-ok response code: '%v'", [Arg.int response.StatusCode]⟩] ∧
    decodes (pingClient.pingAddress client address) = [] ∧
    (∀ e ∈ logs (pingClient.pingAddress client address), e.level ≠ Level.info) := by
  rw [pingAddress_non_ok client address response h hs]
  refine ⟨rfl, rfl, ?_⟩
  intro e he
  simp only [logs, List.mem_singleton] at he
  subst he
  simp

theorem pingAddress_non_ok_status_witness :
    logs (pingClient.pingAddress (fun _ => Except.ok ⟨418, "418 I'm a teapot", "no wai!\n"⟩)
        "http://a") =
      [⟨Level.error, "Got non-ok response code: '%v'", [Arg.int 418]⟩] ∧
    decodes (pingClient.pingAddress (fun _ => Except.ok ⟨418, "418 I'm a teapot", "no wai!\n"⟩)
        "http://a") = [] :=
  let r := pingAddress_non_ok_status (fun _ => Except.ok ⟨418, "418 I'm a teapot", "no wai!\n"⟩)
    "http://a" ⟨418, "418 I'm a teapot", "no wai!\n"⟩ rfl (by decide)
  ⟨r.1, r.2.1⟩

/-- C7: for every success reply of the Responder (status 200, body the JSON
text of "pong" and a newline), a probe that receives it with status code 200
decodes the body without error to exactly "pong", logs exactly one entry, at
informational level, carrying the target, the status text and the payload
pong, and logs no error entry. -/
theorem pong_end_to_end (ps : pingServer) (f : Float64) (remoteAddr : String)
    (client : String → GetResult) (address status : String)
    (hok : (ps.handlePing f remoteAddr).1.status = some StatusOK)
    (hget : client (address ++ "/ping") =
      Except.ok ⟨200, status, (ps.handlePing f remoteAddr).1.body⟩) :
    (ps.handlePing f remoteAddr).1.body = marshalString "pong" ++ "\n" ∧
    Decode (ps.handlePing f remoteAddr).1.body "" = ("pong", none) ∧
    logs (pingClient.pingAddress client address) =
      [⟨Level.info, "Pinged %s, got response: %s, \"%s\"",
        [Arg.str address, Arg.str status, Arg.str "pong"]⟩] ∧
    (∀ e ∈ logs (pingClient.pingAddress client address), e.level ≠ Level.error) := by
  have hlt : f.lt ps.errorRate = false := by
    cases hc : f.lt ps.errorRate with
    | false => rfl
    | true =>
      rw [handlePing_of_lt ps f remoteAddr hc, teapot_response] at hok
      simp [StatusOK] at hok
  have hbody : (ps.handlePing f remoteAddr).1.body = "\"pong\"\n" := by
    rw [handlePing_of_not_lt ps f remoteAddr hlt, pong_response]
  have hdec : Decode "\"pong\"\n" "" = ("pong", none) := by decide
  rw [hbody] at hget ⊢
  have hp := pingAddress_decoded client address ⟨200, status, "\"pong\"\n"⟩ hget rfl
    (by rw [hdec])
  rw [hp]
  refine ⟨by decide, hdec, ?_, ?_⟩
  · simp only [logs, pingedEntry, hdec]
  · intro e he
    simp only [logs, List.mem_singleton] at he
    subst he
    simp [pingedEntry]

theorem pong_end_to_end_witness :
    logs (pingClient.pingAddress
        (fun _ => Except.ok ⟨200, "200 OK",
          ((pingServer.mk ⟨8080, "", "", ""⟩ (Float64.finite 0)).handlePing
            (Float64.finite 0) "10.0.0.1:5000").1.body⟩) "http://a") =
      [⟨Level.info, "Pinged %s, got response: %s, \"%s\"",
        [Arg.str "http://a", Arg.str "200 OK", Arg.str "pong"]⟩] :=
  (pong_end_to_end (pingServer.mk ⟨8080, "", "", ""⟩ (Float64.finite 0)) (Float64.finite 0)
    "10.0.0.1:5000" _ "http://a" "200 OK"
    (by rw [handlePing_of_not_lt _ _ _ (by simp [Float64.lt]), pong_response]; rfl) rfl).2.2.1

/-- C8, as stated, fails: the body `null` is not a JSON string, yet the
decoder reports no error for it (a JSON null leaves a Go string untouched), so
the probe logs no error entry at all, only the "Pinged" entry. -/
theorem pingAddress_null_body_no_error :
    isJSONString "null" = false ∧
    Decode "null" "" = ("", none) ∧
    logs (pingClient.pingAddress (fun _ => Except.ok ⟨200, "200 OK", "null"⟩) "http://a") =
      [⟨Level.info, "Pinged %s, got response: %s, \"%s\"",
        [Arg.str "http://a", Arg.str "200 OK", Arg.str ""]⟩] := by
  refine ⟨by decide, by decide, ?_⟩
  rw [pingAddress_decoded (fun _ => Except.ok ⟨200, "200 OK", "null"⟩) "http://a"
    ⟨200, "200 OK", "null"⟩ rfl rfl (by decide)]
  decide

/-- C8, amended: a decode failure does not abort the probe: for every
status-200 response for whose body the decoder returns an error, the probe
logs exactly one error entry, carrying that error, and then still logs the
informational "Pinged" entry with the target and the status text, in which the
payload is the empty string. -/
theorem pingAddress_decode_failure (client : String → GetResult) (address status body : String)
    (e : DecodeError)
    (hget : client (address ++ "/ping") = Except.ok ⟨200, status, body⟩)
    (herr : (Decode body "").2 = some e) :
    logs (pingClient.pingAddress client address) =
      [⟨Level.error, "error decoding json response: '%v'", [Arg.decodeErr e]⟩,
       ⟨Level.info, "Pinged %s, got response: %s, \"%s\"",
        [Arg.str address, Arg.str status, Arg.str ""]⟩] := by
  have hkeep : (Decode body "").1 = "" := Decode_error body "" (by rw [herr]; simp)
  rw [pingAddress_decode_error client address ⟨200, status, body⟩ e hget rfl herr]
  simp only [logs, pingedEntry, hkeep]

theorem pingAddress_decode_failure_witness :
    isJSONString "12" = false ∧
    logs (pingClient.pingAddress (fun _ => Except.ok ⟨200, "200 OK", "12"⟩) "http://a") =
      [⟨Level.error, "error decoding json response: '%v'",
        [Arg.decodeErr (DecodeError.unmarshalType "number")]⟩,
       ⟨Level.info, "Pinged %s, got response: %s, \"%s\"",
        [Arg.str "http://a", Arg.str "200 OK", Arg.str ""]⟩] :=
  ⟨by decide,
   pingAddress_decode_failure (fun _ => Except.ok ⟨200, "200 OK", "12"⟩) "http://a" "200 OK" "12"
    (DecodeError.unmarshalType "number") rfl (by decide)⟩

/-- C9, as stated, fails: with the interval 0 the period is 0, `time.Tick`
gives no channel and no probe is ever made; with the interval 9223372037 the
product with `time.Second` wraps around in 64 bits to a negative duration. -/
theorem Start_period_not_always_seconds :
    NewPingClient ⟨false, fun _ => none, false⟩ ⟨8080, "", "", ""⟩ ["http://a"] 0
      = some ⟨["http://a"], 0⟩ ∧
    (pingClient.mk ["http://a"] 0).period = 0 ∧
    Tick (pingClient.mk ["http://a"] 0).period = none ∧
    (pingClient.mk ["http://a"] 0).Start 3 (fun _ _ _ => Except.error "connection refused") = [] ∧
    NewPingClient ⟨false, fun _ => none, false⟩ ⟨8080, "", "", ""⟩ ["http://a"] 9223372037
      = some ⟨["http://a"], 9223372037⟩ ∧
    inInt64 9223372037 ∧
    (pingClient.mk ["http://a"] 9223372037).period = -9223372036709551616 ∧
    (pingClient.mk ["http://a"] 9223372037).period ≠ 9223372037 * 1000000000 := by
  refine ⟨rfl, by decide, by decide, by decide, rfl, by decide, by decide, by decide⟩

/-- C9, amended: for every interval value `n` given at construction with
`1 ≤ n ≤ 9223372036` (so that `n` seconds fit a signed 64-bit duration), the
client that `NewPingClient` returns has, in `Start`, the period `n * 10^9`
nanoseconds, without wrap-around, and the period is positive, so `time.Tick`
delivers ticks with that period. -/
theorem Start_period_seconds (env : ClientEnv) (serverConfig : HTTPConfig)
    (addresses : List String) (n : Int) (pc : pingClient)
    (hnew : NewPingClient env serverConfig addresses n = some pc)
    (hpos : 0 < n) (hfit : n ≤ 9223372036) :
    pc.period = n * 1000000000 ∧ 0 < pc.period ∧ Tick pc.period = some (n * 1000000000) := by
  have hpc : pc = ⟨addresses, n⟩ := NewPingClient_eq env serverConfig addresses n pc hnew
  have hp : pc.period = n * 1000000000 := by
    subst hpc
    simp only [pingClient.period, wrapInt64, Second]
    norm_num
    omega
  rw [hp]
  refine ⟨rfl, by omega, ?_⟩
  simp only [Tick]
  rw [if_neg (by omega)]

theorem Start_period_seconds_witness :
    (pingClient.mk ["http://a"] 5).period = 5 * 1000000000 ∧
    0 < (pingClient.mk ["http://a"] 5).period ∧
    Tick (pingClient.mk ["http://a"] 5).period = some (5 * 1000000000) :=
  Start_period_seconds ⟨false, fun _ => none, false⟩ ⟨8080, "", "", ""⟩ ["http://a"] 5
    ⟨["http://a"], 5⟩ rfl (by decide) (by decide)

/-! ## The serving mode -/

/-- C10: the transport configuration alone selects the serving mode: when
`isSecure()` is false the Responder calls the plaintext `ListenAndServe` on
":<port>"; when `isSecure()` is true, which is when the cert file and the key
file are both set, it calls `ListenAndServeTLS` on ":<port>" with the
configured cert and key files, and never the plaintext function. -/
theorem listenAndServe_mode (ps : pingServer) :
    (ps.config.isSecure = true ↔ ps.config.certFile ≠ "" ∧ ps.config.keyFile ≠ "") ∧
    (ps.config.isSecure = false →
      ps.listenAndServe = ServeCall.ListenAndServe (":" ++ toString ps.config.port)) ∧
    (ps.config.isSecure = true →
      ps.listenAndServe =
        ServeCall.ListenAndServeTLS (":" ++ toString ps.config.port)
          ps.config.certFile ps.config.keyFile ∧
      ∀ addr, ps.listenAndServe ≠ ServeCall.ListenAndServe addr) := by
  refine ⟨?_, ?_, ?_⟩
  · simp [HTTPConfig.isSecure]
  · intro h
    simp [pingServer.listenAndServe, h]
  · intro h
    simp [pingServer.listenAndServe, h]

theorem listenAndServe_mode_witness :
    (pingServer.mk ⟨8443, "server.crt", "server.key", ""⟩ (Float64.finite 0)).listenAndServe =
      ServeCall.ListenAndServeTLS ":8443" "server.crt" "server.key" ∧
    (pingServer.mk ⟨8080, "", "", ""⟩ (Float64.finite 0)).listenAndServe =
      ServeCall.ListenAndServe ":8080" ∧
    (pingServer.mk ⟨8080, "server.crt", "", ""⟩ (Float64.finite 0)).listenAndServe =
      ServeCall.ListenAndServe ":8080" :=
  ⟨((listenAndServe_mode
      (pingServer.mk ⟨8443, "server.crt", "server.key", ""⟩ (Float64.finite 0))).2.2
      (by decide)).1,
   (listenAndServe_mode (pingServer.mk ⟨8080, "", "", ""⟩ (Float64.finite 0))).2.1 (by decide),
   (listenAndServe_mode (pingServer.mk ⟨8080, "server.crt", "", ""⟩ (Float64.finite 0))).2.1
      (by decide)⟩
